import Mathlib

/-!
Verification model of the skynet application client library
(skynet/application): the framed message codec (types.py: Header, Message),
the overwrite buffer (utils/buffer.py: Buffer), the subscriber worker loop
and pull accessors (types.py: SkynetServiceSub), the multi-service
synchronizer (synchronization/simple.py: SimpleServicesSynchronizer), and
the application service registry (proxy/application.py: SkynetApplication).

The embedding is shallow: Python exceptions become an explicit error type
threaded through `Except`; an uncaught exception in a worker loop is an
`Except.error` that stops the loop (the thread dies).  CBOR byte strings
are modelled at the granularity the code observes them: a well-formed
frame carries the decoded value together with a natural-number tag
distinguishing different byte encodings of the same value, and a malformed
frame carries only a tag plus the way it fails to decode — cbor2 5.4.x
raises CBORDecodeValueError (a ValueError) on malformed-but-complete
input and CBORDecodeEOF (an EOFError, not a ValueError) on empty or
truncated input.  Frame equality is byte equality; `loads` ignores the
encoding tag, and `dumps` is the canonical encoding (tag 0).
-/

/-- Python exception kinds relevant to the modelled code paths. -/
inductive PyErr where
  | typeError
  | valueError
  | assertionError
  | attributeError
  | indexError
  | eofError
deriving DecidableEq

/-- CBOR-decodable values: the payloads the codec manipulates.  `nil` is
Python `None` / CBOR null; maps are string-keyed association lists, as
produced by cbor2 for the dictionaries this library encodes. -/
inductive CVal where
  | str (s : String)
  | num (q : ℚ)
  | bool (b : Bool)
  | nil
  | map (entries : List (String × CVal))

mutual

/-- Decidable equality on CBOR values (the derive handler does not support
this nested inductive). -/
def CVal.decEq : (a b : CVal) → Decidable (a = b)
  | .str a, .str b => decidable_of_iff (a = b) (by simp)
  | .str _, .num _ => .isFalse (fun h => CVal.noConfusion h)
  | .str _, .bool _ => .isFalse (fun h => CVal.noConfusion h)
  | .str _, .nil => .isFalse (fun h => CVal.noConfusion h)
  | .str _, .map _ => .isFalse (fun h => CVal.noConfusion h)
  | .num _, .str _ => .isFalse (fun h => CVal.noConfusion h)
  | .num a, .num b => decidable_of_iff (a = b) (by simp)
  | .num _, .bool _ => .isFalse (fun h => CVal.noConfusion h)
  | .num _, .nil => .isFalse (fun h => CVal.noConfusion h)
  | .num _, .map _ => .isFalse (fun h => CVal.noConfusion h)
  | .bool _, .str _ => .isFalse (fun h => CVal.noConfusion h)
  | .bool _, .num _ => .isFalse (fun h => CVal.noConfusion h)
  | .bool a, .bool b => decidable_of_iff (a = b) (by simp)
  | .bool _, .nil => .isFalse (fun h => CVal.noConfusion h)
  | .bool _, .map _ => .isFalse (fun h => CVal.noConfusion h)
  | .nil, .str _ => .isFalse (fun h => CVal.noConfusion h)
  | .nil, .num _ => .isFalse (fun h => CVal.noConfusion h)
  | .nil, .bool _ => .isFalse (fun h => CVal.noConfusion h)
  | .nil, .nil => .isTrue rfl
  | .nil, .map _ => .isFalse (fun h => CVal.noConfusion h)
  | .map _, .str _ => .isFalse (fun h => CVal.noConfusion h)
  | .map _, .num _ => .isFalse (fun h => CVal.noConfusion h)
  | .map _, .bool _ => .isFalse (fun h => CVal.noConfusion h)
  | .map _, .nil => .isFalse (fun h => CVal.noConfusion h)
  | .map a, .map b =>
      have : Decidable (a = b) := CVal.decEqEntries a b
      decidable_of_iff (a = b) (by simp)

/-- Decidable equality on CBOR map entry lists. -/
def CVal.decEqEntries : (a b : List (String × CVal)) → Decidable (a = b)
  | [], [] => .isTrue rfl
  | [], _ :: _ => .isFalse (fun h => List.noConfusion h)
  | _ :: _, [] => .isFalse (fun h => List.noConfusion h)
  | (k, v) :: r, (k₂, v₂) :: r₂ =>
      have : Decidable (v = v₂) := CVal.decEq v v₂
      have : Decidable (r = r₂) := CVal.decEqEntries r r₂
      decidable_of_iff (k = k₂ ∧ v = v₂ ∧ r = r₂) (by simp [and_assoc])

end

instance : DecidableEq CVal := CVal.decEq

/-- A byte string on the wire.  `val v enc` is a well-formed CBOR encoding
of `v` (`enc` distinguishes different byte encodings of the same value);
`invalid id` is malformed-but-complete bytes that are not valid CBOR;
`truncated id` is an empty or truncated byte string (the decoder runs out
of input). -/
inductive Frame where
  | val (v : CVal) (enc : Nat)
  | invalid (id : Nat)
  | truncated (id : Nat)
deriving DecidableEq

/-- The empty byte string b"": cbor2 hits end of input at once. -/
def bytesEmpty : Frame := .truncated 0

/-- cbor2.dumps: deterministic canonical encoding. -/
def dumps (v : CVal) : Frame := .val v 0

/-- cbor2.loads under cbor2~=5.4.2: malformed-but-complete input raises
CBORDecodeValueError, a ValueError subclass; empty or truncated input
raises CBORDecodeEOF, an EOFError subclass — and EOFError is not a
ValueError, so `except (TypeError, ValueError)` does not catch it. -/
def loads : Frame → Except PyErr CVal
  | .val v _ => .ok v
  | .invalid _ => .error .valueError
  | .truncated _ => .error .eofError

/-- First binding of key `k` in a decoded CBOR map (Python dict lookup;
cbor2 yields a dict, so the maps the code sees have no duplicate keys). -/
def lookupKey (k : String) : List (String × CVal) → Option CVal
  | [] => none
  | (k₂, v) :: rest => if k₂ = k then some v else lookupKey k rest

/-- Removal of key `k` from a decoded CBOR map (dict.pop side effect). -/
def eraseKey (k : String) (l : List (String × CVal)) : List (String × CVal) :=
  l.filter (fun p => ¬ p.1 = k)

/-- types.py Header: a timestamp and a version tag.  Python dataclasses do
not check field types, so both fields hold arbitrary decoded values. -/
structure Header where
  timestamp : CVal
  version : CVal
deriving DecidableEq

/-- Header(**d): keyword construction from a decoded dict.  Unknown keys or
a missing `timestamp` raise TypeError; `version` defaults to "1.0". -/
def mkHeaderKw (l : List (String × CVal)) : Except PyErr Header :=
  if (l.map Prod.fst).all (fun k => k = "timestamp" || k = "version") then
    match lookupKey "timestamp" l with
    | some t => .ok ⟨t, (lookupKey "version" l).getD (.str "1.0")⟩
    | none => .error .typeError
  else .error .typeError

/-- Header.serialize: cbor2.dumps(dataclasses.asdict(self)). -/
def Header.serialize (h : Header) : Frame :=
  dumps (.map [("timestamp", h.timestamp), ("version", h.version)])

/-- The body of Header.deserialize before its try/except:
cls(**cbor2.loads(raw)). -/
def Header.deserializeTry (raw : Frame) : Except PyErr Header := do
  match ← loads raw with
  | .map l => mkHeaderKw l
  | _ => .error .typeError

/-- Header.deserialize: TypeError and ValueError are caught and turned
into the sentinel failure None; any other exception would propagate. -/
def Header.deserialize (raw : Frame) : Except PyErr (Option Header) :=
  match Header.deserializeTry raw with
  | .ok h => .ok (some h)
  | .error e =>
      if e = .typeError ∨ e = .valueError then .ok none else .error e

/-- types.py Message: a header and an opaque data value.  The `_version`
attribute is the constant "1.0" used by as_dict, and `_length` is
post-decode diagnostics, not transmitted; neither is modelled as state. -/
structure Message where
  header : Header
  data : CVal
deriving DecidableEq

/-- Message(timestamp=t, data=d): the constructor builds
Header(timestamp=t) whose version defaults to "1.0". -/
def Message.make (timestamp data : CVal) : Message :=
  ⟨⟨timestamp, .str "1.0"⟩, data⟩

/-- Message.timestamp reads the header timestamp. -/
def Message.timestamp (m : Message) : CVal := m.header.timestamp

/-- Message.as_dict: {"data": self._data, "version": self._version}. -/
def Message.asDict (m : Message) : CVal :=
  .map [("data", m.data), ("version", .str "1.0")]

/-- Message.serialize: the header frame and the payload frame. -/
def Message.serialize (m : Message) : Frame × Frame :=
  (m.header.serialize, dumps m.asDict)

/-- The payload version check `d.pop("version", None) == "1.0"`: Python
string equality against "1.0" (a non-string compares unequal). -/
def isVersionOne : CVal → Bool
  | .str s => s = "1.0"
  | _ => false

/-- Message(**d, timestamp=ts): after `version` has been popped the
remaining keys must be exactly {"data"}; a leftover `timestamp` key
(duplicate keyword), an unknown key, or a missing `data` raise TypeError. -/
def mkMessageKw (l : List (String × CVal)) (ts : CVal) : Except PyErr Message :=
  if (l.map Prod.fst).all (fun k => k = "data") then
    match lookupKey "data" l with
    | some d => .ok (Message.make ts d)
    | none => .error .typeError
  else .error .typeError

/-- The body of the payload try-block in Message.deserialize:
d = cbor2.loads(payload); assert d.pop("version", None) == "1.0";
msg = cls(**d, timestamp=header.timestamp); msg.header = header.
Calling .pop on a non-dict raises AttributeError and a failed assert
raises AssertionError; neither is in the caught (TypeError, ValueError). -/
def Message.deserializeTry (hdr : Header) (payload : Frame) :
    Except PyErr Message := do
  match ← loads payload with
  | .map l =>
      if isVersionOne ((lookupKey "version" l).getD .nil) then do
        let m ← mkMessageKw (eraseKey "version" l) hdr.timestamp
        .ok { m with header := hdr }
      else .error .assertionError
  | _ => .error .attributeError

/-- Message.deserialize: a caught header failure short-circuits to None
and an uncaught header exception (CBORDecodeEOF) propagates, the payload
untouched either way; in the payload block only TypeError and ValueError
are caught and turned into None, every other exception (AssertionError,
AttributeError, CBORDecodeEOF) propagates to the caller. -/
def Message.deserialize (header payload : Frame) : Except PyErr (Option Message) :=
  match Header.deserialize header with
  | .error e => .error e
  | .ok none => .ok none
  | .ok (some hdr) =>
      match Message.deserializeTry hdr payload with
      | .ok m => .ok (some m)
      | .error e =>
          if e = .typeError ∨ e = .valueError then .ok none else .error e

/-!
Overwrite buffer (utils/buffer.py).  The underlying queue.Queue is a FIFO
list (front = oldest); a maxsize of zero or less means unbounded, matching
queue.Queue.  push and the non-blocking pop are modelled exactly as
written, including the early push-path `return self._queue.get(block=False)` on a
full queue, which removes and returns the oldest item and then leaves the
function without inserting the new item.  A blocking pop on an empty
buffer never returns; the pop model returns `none` exactly when the
blocking call would not have an item to return immediately.
-/

/-- utils/buffer.py Buffer: a bounded FIFO queue. -/
structure Buffer (α : Type) where
  size : Nat
  queue : List α

/-- Queue.full: true when maxsize is positive and reached. -/
def Buffer.full (b : Buffer α) : Bool :=
  0 < b.size && b.size ≤ b.queue.length

/-- Buffer.push: try a non-blocking put; on Full, remove the oldest item
and return it — the early `return` skips the re-insertion of `x`, so the
new item is dropped (the re-insert only runs on the unreachable Empty
fallthrough).  Returns the updated buffer and the Python return value of push. -/
def Buffer.push (b : Buffer α) (x : α) : Buffer α × Option α :=
  if b.full then
    match b.queue with
    | [] => ({ b with queue := [x] }, none)
    | oldest :: rest => ({ b with queue := rest }, some oldest)
  else
    ({ b with queue := b.queue ++ [x] }, none)

/-- Buffer.pop: returns the oldest item, or `none` when the queue is empty
(timeout elapsed, non-blocking call, or a blocking call that never gets an
item). -/
def Buffer.pop (b : Buffer α) : Buffer α × Option α :=
  match b.queue with
  | [] => (b, none)
  | oldest :: rest => ({ b with queue := rest }, some oldest)

/-- A fresh Buffer(size): empty queue. -/
def Buffer.init (size : Nat) : Buffer α := ⟨size, []⟩

/-!
Subscriber service (types.py: SkynetServiceSub).  The worker loop `_work`
is modelled one received two-frame reply at a time; the configuration
(callback registered, message_callback, changes_only, queue size) is fixed
while the loop runs.  The callback itself is modelled as an observation
log of the arguments it was invoked with; the buffer push argument list is
an observation log of the `Buffer.push` call sites.  `signals` counts the
`notify_all` calls on the new-message condition.
-/

/-- Argument passed to a registered callback: the Message itself when
message_callback is set, otherwise its bare data value.  The synchronizer
emits tuples whose components come from slots, which are Option-valued. -/
inductive CbArg where
  | msgArg (m : Option Message)
  | valArg (v : CVal)
deriving DecidableEq

/-- Subscriber configuration fixed at registration time. -/
structure SubConfig where
  hasCallback : Bool
  messageCallback : Bool
  changesOnly : Bool
  queueSize : Nat

/-- Subscriber worker-visible state. -/
structure SubState where
  last : Option Message
  lastRaw : Frame
  buffer : Buffer Message
  calls : List CbArg
  pushes : List Message
  signals : Nat

/-- Subscriber state at construction: _last = NOTHING, _last_raw = b"",
an empty buffer of the configured size, and no observations yet. -/
def subInit (cfg : SubConfig) : SubState :=
  ⟨none, bytesEmpty, Buffer.init cfg.queueSize, [], [], 0⟩

/-- One iteration of SkynetServiceSub._work on a received reply
(header frame, payload frame).  A decode failure (None) skips the
iteration; an uncaught exception kills the worker thread (`Except.error`).
On success: record as last; in callback mode apply the changes_only filter
on the raw payload bytes (the code first compares lengths, then the bytes
— together just byte equality) and invoke the callback unless suppressed;
in buffer mode push into the buffer; finally notify the new-message
condition. -/
def subStep (cfg : SubConfig) (st : SubState) (inp : Frame × Frame) :
    Except PyErr SubState :=
  match Message.deserialize inp.1 inp.2 with
  | .error e => .error e
  | .ok none => .ok st
  | .ok (some msg) =>
      let st := { st with last := some msg }
      let st :=
        if cfg.hasCallback then
          let propagate : Bool := !(cfg.changesOnly && inp.2 = st.lastRaw)
          let st := if cfg.changesOnly then { st with lastRaw := inp.2 } else st
          if propagate then
            { st with calls := st.calls ++
                [if cfg.messageCallback then .msgArg (some msg) else .valArg msg.data] }
          else st
        else
          { st with buffer := (st.buffer.push msg).1, pushes := st.pushes ++ [msg] }
      .ok { st with signals := st.signals + 1 }

/-- The worker loop over a finite prefix of received replies; stops at the
first uncaught exception (the thread dies there). -/
def subRun (cfg : SubConfig) (st : SubState) : List (Frame × Frame) →
    Except PyErr SubState
  | [] => .ok st
  | inp :: rest => do subRun cfg (← subStep cfg st inp) rest

/-- SkynetServiceSub._assert_no_callback: raises ValueError when a
callback is registered. -/
def subAssertNoCallback (cfg : SubConfig) : Except PyErr Unit :=
  if cfg.hasCallback then .error .valueError else .ok ()

/-- The `message` property: assert no callback, then a blocking pop. -/
def subMessageAcc (cfg : SubConfig) (st : SubState) :
    Except PyErr (Option Message) × SubState :=
  match subAssertNoCallback cfg with
  | .error e => (.error e, st)
  | .ok _ =>
      let (b, m) := st.buffer.pop
      (.ok m, { st with buffer := b })

/-- One `next()` on the `messages` generator: the assert in the generator
body runs on the first advance, then each advance pops. -/
def subMessagesNext (cfg : SubConfig) (st : SubState) :
    Except PyErr (Option Message) × SubState :=
  subMessageAcc cfg st

/-- The `value` property: `self.message.data`. -/
def subValueAcc (cfg : SubConfig) (st : SubState) :
    Except PyErr (Option CVal) × SubState :=
  match subMessageAcc cfg st with
  | (.error e, st) => (.error e, st)
  | (.ok m, st) => (.ok (m.map Message.data), st)

/-- One `next()` on the iterator from `__iter__`: assert, pop, `.data`. -/
def subIterNext (cfg : SubConfig) (st : SubState) :
    Except PyErr (Option CVal) × SubState :=
  subValueAcc cfg st

/-- The `last` property: no callback assertion; waits for the new-message
condition while `_last is NOTHING`, then returns `_last`.  `ok none`
stands for the wait that has not yet been signalled. -/
def subLastAcc (_cfg : SubConfig) (st : SubState) :
    Except PyErr (Option Message) × SubState :=
  (.ok st.last, st)

/-!
Multi-service synchronizer (synchronization/simple.py:
SimpleServicesSynchronizer).  The instance registers
`partial(self._internal_callback, i)` with service `i` in message mode, so
arrivals are (stream index, Message) pairs.  `_internal_callback` is
modelled exactly as written: reading `self._partial[index]` on an
out-of-range index raises IndexError (uncaught, killing the worker thread
of that service); a completed round emits either to the round callback or
into the single-slot buffer and then calls `self._partial.clear()`, which
empties the list (it does not refill it with None slots).
-/

/-- Synchronizer configuration: number of joined services, whether a round
callback was given, and its message_callback flag. -/
structure SyncConfig where
  n : Nat
  hasCallback : Bool
  messageCallback : Bool

/-- Synchronizer state: the slot list `_partial`, the filled counter, the
single-slot pull buffer, and the observation log of round-callback
invocations (each entry is the tuple argument, ordered as iterated). -/
structure SyncState where
  slots : List (Option Message)
  counter : Nat
  buffer : Buffer (List (Option Message))
  emitted : List (List CbArg)

/-- Synchronizer state at construction: `[None] * len(services)` slots,
counter 0, a Buffer(size=1). -/
def syncInit (cfg : SyncConfig) : SyncState :=
  ⟨List.replicate cfg.n none, 0, Buffer.init 1, []⟩

/-- `(m if self._message_callback else m.data)` for one slot value:
in value mode, `.data` on a None slot raises AttributeError. -/
def slotArg (cfg : SyncConfig) : Option Message → Except PyErr CbArg
  | some m => .ok (if cfg.messageCallback then .msgArg (some m) else .valArg m.data)
  | none => if cfg.messageCallback then .ok (.msgArg none) else .error .attributeError

/-- Left-to-right evaluation of a generator expression over the slots:
the first exception encountered propagates. -/
def exceptMapList (f : α → Except ε β) : List α → Except ε (List β)
  | [] => .ok []
  | a :: rest => do
      let b ← f a
      let bs ← exceptMapList f rest
      .ok (b :: bs)

/-- SimpleServicesSynchronizer._internal_callback(index, msg), under the
lock: `self._counter += int(self._partial[index] is None)` (an IndexError
here propagates), store the message in the slot, and if the counter equals
`len(self._services)` emit the round — to the callback, or pushed into the
buffer — then `self._partial.clear()` (leaving an empty list, not fresh
None slots) and reset the counter. -/
def syncStep (cfg : SyncConfig) (st : SyncState) (index : Nat) (msg : Message) :
    Except PyErr SyncState :=
  match st.slots.get? index with
  | none => .error .indexError
  | some slot =>
      let counter := st.counter + (if slot.isNone then 1 else 0)
      let slots := st.slots.set index (some msg)
      if counter = cfg.n then
        if cfg.hasCallback then do
          let args ← exceptMapList (slotArg cfg) slots
          .ok { st with slots := [], counter := 0,
                        emitted := st.emitted ++ [args] }
        else
          .ok { st with slots := [], counter := 0,
                        buffer := (st.buffer.push slots).1 }
      else
        .ok { st with slots := slots, counter := counter }

/-- A finite sequence of deliveries to the synchronizer (each performed by
the worker thread of some service); an uncaught exception kills the delivering
thread, and the model stops there. -/
def syncRun (cfg : SyncConfig) (st : SyncState) : List (Nat × Message) →
    Except PyErr SyncState
  | [] => .ok st
  | (i, m) :: rest => do syncRun cfg (← syncStep cfg st i m) rest

/-- SimpleServicesSynchronizer._assert_no_callback. -/
def syncAssertNoCallback (cfg : SyncConfig) : Except PyErr Unit :=
  if cfg.hasCallback then .error .valueError else .ok ()

/-- The synchronizer `message` property: assert no callback, blocking pop. -/
def syncMessageAcc (cfg : SyncConfig) (st : SyncState) :
    Except PyErr (Option (List (Option Message))) × SyncState :=
  match syncAssertNoCallback cfg with
  | .error e => (.error e, st)
  | .ok _ =>
      let (b, m) := st.buffer.pop
      (.ok m, { st with buffer := b })

/-- One `next()` on the synchronizer `messages` generator. -/
def syncMessagesNext (cfg : SyncConfig) (st : SyncState) :
    Except PyErr (Option (List (Option Message))) × SyncState :=
  syncMessageAcc cfg st

/-- The synchronizer `value` property:
`tuple(m.data for m in self.message)` (goes through `message`, which
asserts; `.data` on a None component raises AttributeError). -/
def syncValueAcc (cfg : SyncConfig) (st : SyncState) :
    Except PyErr (Option (List CVal)) × SyncState :=
  match syncMessageAcc cfg st with
  | (.error e, st) => (.error e, st)
  | (.ok none, st) => (.ok none, st)
  | (.ok (some tup), st) =>
      match tup.mapM (fun o => o.map Message.data) with
      | some ds => (.ok (some ds), st)
      | none => (.error .attributeError, st)

/-- One `next()` on the synchronizer iterator from `__iter__`. -/
def syncIterNext (cfg : SyncConfig) (st : SyncState) :
    Except PyErr (Option (List CVal)) × SyncState :=
  match syncAssertNoCallback cfg with
  | .error e => (.error e, st)
  | .ok _ =>
      let (b, m) := st.buffer.pop
      match m with
      | none => (.ok none, { st with buffer := b })
      | some tup =>
          match tup.mapM (fun o => o.map Message.data) with
          | some ds => (.ok (some ds), { st with buffer := b })
          | none => (.error .attributeError, { st with buffer := b })

/-!
Application service registry (proxy/application.py: SkynetApplication).
`expose` checks the (kind, name) key against the class-level registry
before any mutation: a duplicate raises ValueError at the call site and
nothing else happens; otherwise the service is recorded and one
control-plane call `service/expose` is made to the node.
-/

/-- The identity of a service as keyed by the registry:
(service.type.value, service.name). -/
structure SService where
  kind : String
  name : String
deriving DecidableEq

/-- Registry plus the log of control-plane calls made to the node. -/
structure AppState where
  services : List ((String × String) × SService)
  nodeCalls : List SService

/-- SkynetApplication.expose: raise ValueError if the (kind, name) key is
already present (leaving registry and node untouched), else record the
service and call `service/expose` on the node. -/
def expose (st : AppState) (s : SService) : Except PyErr Unit × AppState :=
  if (st.services.map Prod.fst).contains (s.kind, s.name) then
    (.error .valueError, st)
  else
    (.ok (), { services := st.services ++ [((s.kind, s.name), s)],
               nodeCalls := st.nodeCalls ++ [s] })

/-!
Characterization helpers used by the theorem statements below.
-/

/-- Whether stream `i` has delivered at least one message in `ds`. -/
def covered (ds : List (Nat × Message)) (i : Nat) : Bool :=
  ds.any (fun d => d.1 == i)

/-- The most recent message delivered to stream `i` in `ds`. -/
def lastMsg (ds : List (Nat × Message)) (i : Nat) : Option Message :=
  ds.foldl (fun acc d => if d.1 = i then some d.2 else acc) none

/-- The slot vector determined by the deliveries `ds` of a round in
progress: slot `i` holds the most recent message of stream `i`. -/
def slotsOf (n : Nat) (ds : List (Nat × Message)) : List (Option Message) :=
  (List.range n).map (fun i => lastMsg ds i)

/-- Number of filled slots. -/
def countSome (l : List (Option Message)) : Nat :=
  l.countP (fun o => o.isSome)

/-- Specification-side change filter, written from the words of the spec:
keep a message exactly when its raw payload bytes differ byte-for-byte
from the raw payload bytes of the message before it (`prev` starts as the
empty byte string).  Compared against the worker-loop fold `subRun`. -/
def keptByChanges (prev : Frame) : List (Frame × Message) → List Message
  | [] => []
  | (p, m) :: rest =>
      if p = prev then keptByChanges p rest else m :: keptByChanges p rest

/-!
Theorems.
-/

/-- C1: the claim states that push on a full buffer evicts exactly the
oldest item and then inserts the new item, so that on a capacity-1 buffer
push(a); push(b); pop() returns b.  The code instead returns from push
right after evicting the oldest item (the early `return
self._queue.get(block=False)`), never inserting the new item: after
push(a); push(b) the queue is empty, push returned the evicted a, and pop
finds nothing (the default blocking pop would block forever).  This
contradicts the comment `add again, now we got a spot` in the same
function: the claim matches the intent and the code drops the new item. -/
theorem C1_push_on_full_drops_new_item :
    ((Buffer.init 1 : Buffer CVal).push (.str "a")).1.queue = [.str "a"] ∧
    (((Buffer.init 1 : Buffer CVal).push (.str "a")).1.push (.str "b")) =
      (⟨1, []⟩, some (.str "a")) ∧
    (((Buffer.init 1 : Buffer CVal).push (.str "a")).1.push (.str "b")).1.pop.2
      = none :=
  ⟨rfl, rfl, rfl⟩

/-- C2: the claim states that after a completed round the N slots are
cleared and the count reset so that the next round proceeds normally, the
slot vector being recycled and never destroyed.  The code calls
`self._partial.clear()`, which empties the list to length 0 instead of
refilling it with N empty slots: after the first completed round (streams
1, 0, 2 of a 3-stream synchronizer) the slot vector is gone, and the very
next delivery raises IndexError at `self._partial[index]`, killing the
worker thread of the delivering service — no subsequent round can ever
complete.  The claim matches the stated intent (`clear internal state`,
counter reset to begin a new round); the code destroys the vector. -/
theorem C2_slot_vector_destroyed_after_round :
    syncRun ⟨3, true, true⟩ (syncInit ⟨3, true, true⟩)
      [(1, Message.make (.num 1) (.str "b")), (0, Message.make (.num 0) (.str "a")),
       (2, Message.make (.num 2) (.str "c"))] =
      .ok ⟨[], 0, Buffer.init 1,
           [[.msgArg (some (Message.make (.num 0) (.str "a"))),
             .msgArg (some (Message.make (.num 1) (.str "b"))),
             .msgArg (some (Message.make (.num 2) (.str "c")))]]⟩ ∧
    syncStep ⟨3, true, true⟩ ⟨[], 0, Buffer.init 1,
        [[.msgArg (some (Message.make (.num 0) (.str "a"))),
          .msgArg (some (Message.make (.num 1) (.str "b"))),
          .msgArg (some (Message.make (.num 2) (.str "c")))]]⟩
      0 (Message.make (.num 3) (.str "d")) = .error .indexError :=
  ⟨rfl, rfl⟩

/-- C3 counterexample: the claim states that a payload whose version tag
differs from "1.0" makes Message decoding return the sentinel failure
None without raising.  On a well-formed header and a payload carrying
version "2.0", Message.deserialize raises AssertionError instead: the
version assert sits inside the try-block, but `except (TypeError,
ValueError)` does not catch AssertionError. -/
theorem C3_counterexample_version_mismatch :
    Message.deserialize
        (dumps (.map [("timestamp", .num 1000), ("version", .str "1.0")]))
        (dumps (.map [("data", .str "x"), ("version", .str "2.0")])) =
      .error .assertionError ∧
    Message.deserialize
        (dumps (.map [("timestamp", .num 1000), ("version", .str "1.0")]))
        (dumps (.map [("data", .str "x"), ("version", .str "2.0")])) ≠
      .ok none :=
  ⟨rfl, fun h => nomatch h⟩

/-- C3 amended: for every payload frame that decodes to a map whose
version tag is not the string "1.0" (including a missing tag, popped as
None), and every header frame that decodes successfully, Message decoding
raises AssertionError out of deserialize — a hard failure that propagates
to the caller (killing the subscriber worker loop), not the sentinel
None.  Malformed-payload TypeError/ValueError are still soft (None). -/
theorem C3_version_mismatch_raises_assertion (h p : Frame) (hdr : Header)
    (l : List (String × CVal)) (e : Nat)
    (hh : Header.deserialize h = .ok (some hdr))
    (hp : p = .val (.map l) e)
    (hv : isVersionOne ((lookupKey "version" l).getD .nil) = false) :
    Message.deserialize h p = .error .assertionError := by
  subst hp
  simp [Message.deserialize, hh, Message.deserializeTry, loads, hv,
    Bind.bind, Except.bind]

/-- C3 witness: the amended theorem applied at a concrete header and a
concrete payload carrying version "2.0". -/
theorem C3_version_mismatch_witness :
    Message.deserialize (dumps (.map [("timestamp", .num 1000)]))
        (.val (.map [("data", .str "x"), ("version", .str "2.0")]) 3) =
      .error .assertionError :=
  C3_version_mismatch_raises_assertion _ _ ⟨.num 1000, .str "1.0"⟩ _ 3 rfl rfl rfl

/-- C6: Message round trip — for every timestamp value and every data
value, serializing a Message into its two frames and deserializing those
frames yields the same Message back (equal timestamp, equal data); in
particular, encoding timestamp 1000.0 with data "x" and decoding yields
timestamp 1000.0 and data "x". -/
theorem C6_message_roundtrip :
    (∀ ts d : CVal,
      Message.deserialize (Message.make ts d).serialize.1
          (Message.make ts d).serialize.2 = .ok (some (Message.make ts d))) ∧
    Message.deserialize (Message.make (.num 1000) (.str "x")).serialize.1
        (Message.make (.num 1000) (.str "x")).serialize.2 =
      .ok (some (Message.make (.num 1000) (.str "x"))) ∧
    (Message.make (.num 1000) (.str "x")).timestamp = .num 1000 ∧
    (Message.make (.num 1000) (.str "x")).data = .str "x" :=
  ⟨fun _ _ => rfl, rfl, rfl, rfl⟩

/-- Helper: every exception raised by Header(**cbor2.loads(raw)) is a
TypeError, hence caught by the surrounding except clause. -/
theorem mkHeaderKw_error (l : List (String × CVal)) (e : PyErr)
    (h : mkHeaderKw l = .error e) : e = .typeError := by
  unfold mkHeaderKw at h
  split at h
  · split at h
    · exact absurd h (by simp)
    · exact (Except.error.inj h).symm
  · exact (Except.error.inj h).symm

/-- Helper: an exception raised inside the Header.deserialize try-block
is a TypeError or a ValueError — hence caught — except on an empty or
truncated frame, where cbor2 raises CBORDecodeEOF, an EOFError. -/
theorem headerTry_error_classify (raw : Frame) (e : PyErr)
    (h : Header.deserializeTry raw = .error e) :
    (e = .typeError ∨ e = .valueError) ∨
      (e = .eofError ∧ ∃ i, raw = Frame.truncated i) := by
  cases raw with
  | invalid i =>
      simp [Header.deserializeTry, loads, Bind.bind, Except.bind] at h
      exact Or.inl (Or.inr h.symm)
  | truncated i =>
      simp [Header.deserializeTry, loads, Bind.bind, Except.bind] at h
      exact Or.inr ⟨h.symm, i, rfl⟩
  | val v enc =>
      cases v with
      | map l =>
          simp [Header.deserializeTry, loads, Bind.bind, Except.bind] at h
          exact Or.inl (Or.inl (mkHeaderKw_error l e h))
      | str s =>
          simp [Header.deserializeTry, loads, Bind.bind, Except.bind] at h
          exact Or.inl (Or.inl h.symm)
      | num q =>
          simp [Header.deserializeTry, loads, Bind.bind, Except.bind] at h
          exact Or.inl (Or.inl h.symm)
      | bool b =>
          simp [Header.deserializeTry, loads, Bind.bind, Except.bind] at h
          exact Or.inl (Or.inl h.symm)
      | nil =>
          simp [Header.deserializeTry, loads, Bind.bind, Except.bind] at h
          exact Or.inl (Or.inl h.symm)

/-- Helper: the only exception Header.deserialize propagates past its
except clause is the CBORDecodeEOF raised on an empty or truncated header
frame; every other failure becomes the sentinel None. -/
theorem header_deserialize_error_classify (raw : Frame) (e : PyErr)
    (h : Header.deserialize raw = .error e) :
    e = .eofError ∧ ∃ i, raw = Frame.truncated i := by
  unfold Header.deserialize at h
  cases htry : Header.deserializeTry raw with
  | ok hd => rw [htry] at h; exact absurd h (by simp)
  | error e₂ =>
      rw [htry] at h
      rcases headerTry_error_classify raw e₂ htry with hc | ⟨he, hid⟩
      · change (if e₂ = PyErr.typeError ∨ e₂ = PyErr.valueError then
            (Except.ok none : Except PyErr (Option Header))
          else Except.error e₂) = Except.error e at h
        rw [if_pos hc] at h
        exact absurd h (by simp)
      · subst he
        change (if PyErr.eofError = PyErr.typeError ∨
              PyErr.eofError = PyErr.valueError then
            (Except.ok none : Except PyErr (Option Header))
          else Except.error PyErr.eofError) = Except.error e at h
        rw [if_neg (by simp)] at h
        exact ⟨(Except.error.inj h).symm, hid⟩

/-- C7 counterexample: the claim states that every header frame that
fails to decode yields the sentinel None without raising.  The empty
header frame refutes it: cbor2 raises CBORDecodeEOF there, an EOFError
that `except (TypeError, ValueError)` does not catch, so
Header.deserialize — and with it Message.deserialize — raises instead of
returning None. -/
theorem C7_counterexample_empty_header_raises :
    Header.deserialize bytesEmpty = .error .eofError ∧
    Message.deserialize bytesEmpty
        (dumps (.map [("data", .str "x"), ("version", .str "1.0")])) =
      .error .eofError ∧
    Message.deserialize bytesEmpty
        (dumps (.map [("data", .str "x"), ("version", .str "1.0")])) ≠
      .ok none :=
  ⟨rfl, rfl, fun h => nomatch h⟩

/-- C7 amended: a header frame whose decode failure is a TypeError or a
ValueError — malformed-but-complete CBOR, a non-map, unknown keys, or a
map missing the required timestamp field — yields the sentinel None, and
Message decoding then returns None for every payload frame whatsoever;
the one header failure that escapes is CBORDecodeEOF (an EOFError) on an
empty or truncated header frame, which propagates.  In both cases decode
is never partially applied: the outcome is fixed by the header alone and
the payload frame is never decoded. -/
theorem C7_header_failure_soft_or_eof :
    (∀ raw e, Header.deserialize raw = .error e →
       e = .eofError ∧ ∃ i, raw = Frame.truncated i) ∧
    (∀ h p, Header.deserialize h = .ok none → Message.deserialize h p = .ok none) ∧
    (∀ h p e, Header.deserialize h = .error e → Message.deserialize h p = .error e) ∧
    (∀ l e, lookupKey "timestamp" l = none →
      Header.deserialize (.val (.map l) e) = .ok none) := by
  refine ⟨header_deserialize_error_classify, ?_, ?_, ?_⟩
  · intro h p hh
    simp [Message.deserialize, hh]
  · intro h p e hh
    simp [Message.deserialize, hh]
  · intro l e hl
    unfold Header.deserialize Header.deserializeTry
    simp [loads, Bind.bind, Except.bind, mkHeaderKw, hl]

/-- C7 witness: a header map lacking the timestamp field decodes to None
and short-circuits Message decoding to None for a malformed payload
frame; a truncated header frame propagates its EOFError for every
payload frame, here the same malformed one. -/
theorem C7_soft_failure_witness :
    Header.deserialize (dumps (.map [("version", .str "1.0")])) = .ok none ∧
    Message.deserialize (dumps (.map [("version", .str "1.0")]))
      (.invalid 7) = .ok none ∧
    Message.deserialize (.truncated 3) (.invalid 7) = .error .eofError := by
  have h := C7_header_failure_soft_or_eof
  exact ⟨h.2.2.2 _ 0 rfl, h.2.1 _ _ (h.2.2.2 _ 0 rfl),
         h.2.2.1 _ _ _ (by rfl)⟩

/-- C8: on a Subscriber or Synchronizer with a registered callback, every
pull accessor — message, a next() on the messages generator, value, and a
next() on the iterator — deterministically raises the configuration
conflict ValueError and leaves the state (in particular the buffer)
untouched.  The generator-backed accessors run their assert on the first
advance, which is when pulling is attempted. -/
theorem C8_pull_accessors_raise_conflict (scfg : SubConfig) (sst : SubState)
    (ycfg : SyncConfig) (yst : SyncState)
    (hs : scfg.hasCallback = true) (hy : ycfg.hasCallback = true) :
    subMessageAcc scfg sst = (.error .valueError, sst) ∧
    subMessagesNext scfg sst = (.error .valueError, sst) ∧
    subValueAcc scfg sst = (.error .valueError, sst) ∧
    subIterNext scfg sst = (.error .valueError, sst) ∧
    syncMessageAcc ycfg yst = (.error .valueError, yst) ∧
    syncMessagesNext ycfg yst = (.error .valueError, yst) ∧
    syncValueAcc ycfg yst = (.error .valueError, yst) ∧
    syncIterNext ycfg yst = (.error .valueError, yst) := by
  simp [subMessageAcc, subMessagesNext, subValueAcc, subIterNext,
        syncMessageAcc, syncMessagesNext, syncValueAcc, syncIterNext,
        subAssertNoCallback, syncAssertNoCallback, hs, hy]

/-- C8 witness: the conflict error on a concrete subscriber and a concrete
synchronizer, both with a callback registered and a non-empty buffer that
is left unconsumed. -/
theorem C8_witness :
    subMessageAcc ⟨true, false, false, 1⟩
        ⟨none, bytesEmpty, ⟨1, [Message.make (.num 1) (.str "x")]⟩, [], [], 0⟩ =
      (.error .valueError,
       ⟨none, bytesEmpty, ⟨1, [Message.make (.num 1) (.str "x")]⟩, [], [], 0⟩) ∧
    syncIterNext ⟨2, true, true⟩ ⟨[none, none], 0, ⟨1, []⟩, []⟩ =
      (.error .valueError, ⟨[none, none], 0, ⟨1, []⟩, []⟩) := by
  have h := C8_pull_accessors_raise_conflict ⟨true, false, false, 1⟩
    ⟨none, bytesEmpty, ⟨1, [Message.make (.num 1) (.str "x")]⟩, [], [], 0⟩
    ⟨2, true, true⟩ ⟨[none, none], 0, ⟨1, []⟩, []⟩ rfl rfl
  exact ⟨h.1, h.2.2.2.2.2.2.2⟩

/-- C9: exposing a service whose (kind, name) key is already registered
raises ValueError at the call site leaving the registry untouched and
making no control-plane call; exposing an unregistered (kind, name) never
raises — it records the service and makes exactly one service/expose call
to the node. -/
theorem C9_expose_duplicate_conflict (st : AppState) (s : SService) :
    ((st.services.map Prod.fst).contains (s.kind, s.name) = true →
      expose st s = (.error .valueError, st)) ∧
    ((st.services.map Prod.fst).contains (s.kind, s.name) = false →
      expose st s = (.ok (), ⟨st.services ++ [((s.kind, s.name), s)],
                              st.nodeCalls ++ [s]⟩)) := by
  refine ⟨fun h => ?_, fun h => ?_⟩ <;> unfold expose <;> rw [h] <;> rfl

/-- C9 witness: a duplicate key is rejected with the registry and call log
unchanged; a fresh key is accepted with one node call. -/
theorem C9_witness :
    expose ⟨[(("sub", "camera"), ⟨"sub", "camera"⟩)], [⟨"sub", "camera"⟩]⟩
        ⟨"sub", "camera"⟩ =
      (.error .valueError,
       ⟨[(("sub", "camera"), ⟨"sub", "camera"⟩)], [⟨"sub", "camera"⟩]⟩) ∧
    expose ⟨[(("sub", "camera"), ⟨"sub", "camera"⟩)], [⟨"sub", "camera"⟩]⟩
        ⟨"pub", "camera"⟩ =
      (.ok (),
       ⟨[(("sub", "camera"), ⟨"sub", "camera"⟩), (("pub", "camera"), ⟨"pub", "camera"⟩)],
        [⟨"sub", "camera"⟩, ⟨"pub", "camera"⟩]⟩) := by
  have h₁ := C9_expose_duplicate_conflict
    ⟨[(("sub", "camera"), ⟨"sub", "camera"⟩)], [⟨"sub", "camera"⟩]⟩ ⟨"sub", "camera"⟩
  have h₂ := C9_expose_duplicate_conflict
    ⟨[(("sub", "camera"), ⟨"sub", "camera"⟩)], [⟨"sub", "camera"⟩]⟩ ⟨"pub", "camera"⟩
  exact ⟨h₁.1 (by decide), h₂.2 (by decide)⟩

/-- C10: every successfully decoded message is recorded as the last
received message and the new-message condition is notified exactly once
for it, in every configuration — with or without a callback, suppressed
by change filtering or not; and the last accessor never performs the
callback/pull conflict assert: it returns the recorded last message in
every configuration, including with a callback registered (blocking only
while no message has ever been recorded). -/
theorem C10_last_recorded_and_signalled (cfg : SubConfig) (st : SubState)
    (inp : Frame × Frame) (m : Message)
    (hdec : Message.deserialize inp.1 inp.2 = .ok (some m)) :
    ((subStep cfg st inp).map SubState.last = .ok (some m) ∧
     (subStep cfg st inp).map SubState.signals = .ok (st.signals + 1)) ∧
    (∀ cfg₂ st₂, subLastAcc cfg₂ st₂ = (.ok st₂.last, st₂)) := by
  refine ⟨?_, fun _ _ => rfl⟩
  unfold subStep
  rw [hdec]
  simp only [Except.map]
  constructor <;> split_ifs <;> rfl

/-- C10 witness: a configuration where change filtering suppresses the
callback (the incoming payload bytes equal the previous ones) still
records the message as last and still notifies the condition. -/
theorem C10_witness :
    (subStep ⟨true, false, true, 1⟩
        ⟨none, .val (.map [("data", .str "x"), ("version", .str "1.0")]) 0,
         Buffer.init 1, [], [], 5⟩
        (dumps (.map [("timestamp", .num 1)]),
         .val (.map [("data", .str "x"), ("version", .str "1.0")]) 0)).map
      SubState.last = .ok (some (Message.make (.num 1) (.str "x"))) ∧
    (subStep ⟨true, false, true, 1⟩
        ⟨none, .val (.map [("data", .str "x"), ("version", .str "1.0")]) 0,
         Buffer.init 1, [], [], 5⟩
        (dumps (.map [("timestamp", .num 1)]),
         .val (.map [("data", .str "x"), ("version", .str "1.0")]) 0)).map
      SubState.signals = .ok 6 :=
  (C10_last_recorded_and_signalled ⟨true, false, true, 1⟩
    ⟨none, .val (.map [("data", .str "x"), ("version", .str "1.0")]) 0,
     Buffer.init 1, [], [], 5⟩
    (dumps (.map [("timestamp", .num 1)]),
     .val (.map [("data", .str "x"), ("version", .str "1.0")]) 0)
    (Message.make (.num 1) (.str "x")) rfl).1

/-- Helper: in callback mode with changes_only, the worker loop appends to
the call log exactly the change-filtered messages, relative to the current
last-raw bytes of the state. -/
theorem subRun_changesOnly_calls (q : Nat) (ins : List (Frame × Frame))
    (ms : List Message)
    (hf : List.Forall₂ (fun (inp : Frame × Frame) m =>
      Message.deserialize inp.1 inp.2 = .ok (some m)) ins ms) :
    ∀ st : SubState,
      (subRun ⟨true, false, true, q⟩ st ins).map SubState.calls =
        .ok (st.calls ++ (keptByChanges st.lastRaw
          ((ins.map Prod.snd).zip ms)).map (fun m => CbArg.valArg m.data)) := by
  induction hf with
  | nil => intro st; simp [subRun, keptByChanges, Except.map]
  | @cons inp m ins₂ ms₂ hhead _ ih =>
      intro st
      by_cases hpe : inp.2 = st.lastRaw
      · have hstep : subStep ⟨true, false, true, q⟩ st inp =
            .ok ⟨some m, inp.2, st.buffer, st.calls, st.pushes, st.signals + 1⟩ := by
          unfold subStep; rw [hhead]; simp [hpe]
        simp only [subRun, Bind.bind, Except.bind, hstep]
        rw [ih ⟨some m, inp.2, st.buffer, st.calls, st.pushes, st.signals + 1⟩]
        simp [keptByChanges, hpe, List.zip]
      · have hstep : subStep ⟨true, false, true, q⟩ st inp =
            .ok ⟨some m, inp.2, st.buffer, st.calls ++ [CbArg.valArg m.data],
                 st.pushes, st.signals + 1⟩ := by
          unfold subStep; rw [hhead]; simp [hpe]
        simp only [subRun, Bind.bind, Except.bind, hstep]
        rw [ih ⟨some m, inp.2, st.buffer, st.calls ++ [CbArg.valArg m.data],
                st.pushes, st.signals + 1⟩]
        simp [keptByChanges, hpe, List.zip]

/-- Helper: in buffer (pull) mode the worker loop invokes Buffer.push for
every decoded message — the change filter is never consulted. -/
theorem subRun_buffer_pushes (mcb co : Bool) (q : Nat)
    (ins : List (Frame × Frame)) (ms : List Message)
    (hf : List.Forall₂ (fun (inp : Frame × Frame) m =>
      Message.deserialize inp.1 inp.2 = .ok (some m)) ins ms) :
    ∀ st : SubState,
      (subRun ⟨false, mcb, co, q⟩ st ins).map SubState.pushes =
        .ok (st.pushes ++ ms) := by
  induction hf with
  | nil => intro st; simp [subRun, Except.map]
  | @cons inp m ins₂ ms₂ hhead _ ih =>
      intro st
      have hstep : subStep ⟨false, mcb, co, q⟩ st inp =
          .ok ⟨some m, st.lastRaw, (st.buffer.push m).1, st.calls,
               st.pushes ++ [m], st.signals + 1⟩ := by
        unfold subStep; rw [hhead]; simp
      simp only [subRun, Bind.bind, Except.bind, hstep]
      rw [ih ⟨some m, st.lastRaw, (st.buffer.push m).1, st.calls,
              st.pushes ++ [m], st.signals + 1⟩]
      simp

/-- C5 counterexample: the claim states that in buffer (pull) mode every
successfully decoded message is stored in the buffer.  With the default
queue size 1, after two decoded messages and no pop the buffer is empty:
the second push found the buffer full, evicted the first message and —
because of the early return in Buffer.push — dropped the second message
instead of storing it.  Push was invoked for both messages. -/
theorem C5_counterexample_second_message_not_stored :
    (subRun ⟨false, false, true, 1⟩ (subInit ⟨false, false, true, 1⟩)
      [(dumps (.map [("timestamp", .num 1)]),
        dumps (.map [("data", .str "x"), ("version", .str "1.0")])),
       (dumps (.map [("timestamp", .num 2)]),
        dumps (.map [("data", .str "y"), ("version", .str "1.0")]))]).map
      (fun st => st.buffer.queue) = .ok [] ∧
    (subRun ⟨false, false, true, 1⟩ (subInit ⟨false, false, true, 1⟩)
      [(dumps (.map [("timestamp", .num 1)]),
        dumps (.map [("data", .str "x"), ("version", .str "1.0")])),
       (dumps (.map [("timestamp", .num 2)]),
        dumps (.map [("data", .str "y"), ("version", .str "1.0")]))]).map
      SubState.pushes =
      .ok [Message.make (.num 1) (.str "x"), Message.make (.num 2) (.str "y")] :=
  ⟨rfl, rfl⟩

/-- C5 amended: with changes_only in callback mode, for every run of
consecutive successfully decoded messages with byte-identical raw payloads
the callback fires exactly once, on the first of the run (the call log is
the change-filtered message list — a message is delivered exactly when its
payload bytes differ from the previous ones, and the initial previous
bytes b"" never equal a decodable payload); in buffer (pull) mode
Buffer.push is invoked for every successfully decoded message regardless
of the filter — but a push finding the size-1 buffer full evicts the
pending item and drops the new message, so the buffer does not retain
every decoded message (see the counterexample). -/
theorem C5_change_filter_and_buffer_pushes (q : Nat)
    (ins : List (Frame × Frame)) (ms : List Message)
    (hdec : List.Forall₂ (fun (inp : Frame × Frame) m =>
      Message.deserialize inp.1 inp.2 = .ok (some m)) ins ms) :
    (subRun ⟨true, false, true, q⟩ (subInit ⟨true, false, true, q⟩) ins).map
        SubState.calls =
      .ok ((keptByChanges bytesEmpty ((ins.map Prod.snd).zip ms)).map
        (fun m => CbArg.valArg m.data)) ∧
    (subRun ⟨false, false, true, 1⟩ (subInit ⟨false, false, true, 1⟩) ins).map
        SubState.pushes = .ok ms := by
  constructor
  · simpa [subInit] using subRun_changesOnly_calls q ins ms hdec (subInit ⟨true, false, true, q⟩)
  · simpa [subInit] using subRun_buffer_pushes false true 1 ins ms hdec (subInit ⟨false, false, true, 1⟩)

/-- C5 witness: three decoded messages with payload bytes x, x, y: the
callback fires on the first x and on y; in buffer mode push is invoked
for all three. -/
theorem C5_witness :
    (subRun ⟨true, false, true, 1⟩ (subInit ⟨true, false, true, 1⟩)
      [(dumps (.map [("timestamp", .num 1)]),
        dumps (.map [("data", .str "x"), ("version", .str "1.0")])),
       (dumps (.map [("timestamp", .num 2)]),
        dumps (.map [("data", .str "x"), ("version", .str "1.0")])),
       (dumps (.map [("timestamp", .num 3)]),
        dumps (.map [("data", .str "y"), ("version", .str "1.0")]))]).map
      SubState.calls = .ok [CbArg.valArg (.str "x"), CbArg.valArg (.str "y")] ∧
    (subRun ⟨false, false, true, 1⟩ (subInit ⟨false, false, true, 1⟩)
      [(dumps (.map [("timestamp", .num 1)]),
        dumps (.map [("data", .str "x"), ("version", .str "1.0")])),
       (dumps (.map [("timestamp", .num 2)]),
        dumps (.map [("data", .str "x"), ("version", .str "1.0")])),
       (dumps (.map [("timestamp", .num 3)]),
        dumps (.map [("data", .str "y"), ("version", .str "1.0")]))]).map
      SubState.pushes =
      .ok [Message.make (.num 1) (.str "x"), Message.make (.num 2) (.str "x"),
           Message.make (.num 3) (.str "y")] :=
  C5_change_filter_and_buffer_pushes 1 _
    [Message.make (.num 1) (.str "x"), Message.make (.num 2) (.str "x"),
     Message.make (.num 3) (.str "y")]
    (.cons rfl (.cons rfl (.cons rfl .nil)))

/-- Helper: coverage after one more delivery. -/
theorem covered_snoc (ds : List (Nat × Message)) (j : Nat) (m : Message)
    (i : Nat) : covered (ds ++ [(j, m)]) i = (covered ds i || (j == i)) := by
  simp [covered, List.any_append]

/-- Helper: latest message after one more delivery. -/
theorem lastMsg_snoc (ds : List (Nat × Message)) (j : Nat) (m : Message)
    (i : Nat) :
    lastMsg (ds ++ [(j, m)]) i = if j = i then some m else lastMsg ds i := by
  simp [lastMsg, List.foldl_append]

/-- Helper: a stream has no latest message exactly when it has not
delivered yet. -/
theorem lastMsg_none_iff (ds : List (Nat × Message)) (i : Nat) :
    lastMsg ds i = none ↔ covered ds i = false := by
  induction ds using List.reverseRecOn with
  | nil => simp [lastMsg, covered]
  | append_singleton pre d ih =>
      obtain ⟨j, m⟩ := d
      rw [lastMsg_snoc, covered_snoc]
      by_cases hj : j = i
      · simp [hj]
      · simp [hj, ih]

/-- Helper: slot fill status equals coverage. -/
theorem lastMsg_isSome (ds : List (Nat × Message)) (i : Nat) :
    (lastMsg ds i).isSome = covered ds i := by
  cases hc : covered ds i
  · rw [(lastMsg_none_iff ds i).mpr hc]; rfl
  · cases hl : lastMsg ds i with
    | none => rw [(lastMsg_none_iff ds i).mp hl] at hc; exact absurd hc (by simp)
    | some m => rfl

/-- Helper: the slot vector has one slot per stream. -/
theorem slotsOf_length (n : Nat) (ds : List (Nat × Message)) :
    (slotsOf n ds).length = n := by
  simp [slotsOf]

/-- Helper: reading slot i of the slot vector. -/
theorem slotsOf_get (n : Nat) (ds : List (Nat × Message)) (i : Nat)
    (h : i < n) : (slotsOf n ds).get? i = some (lastMsg ds i) := by
  rw [List.get?_eq_getElem?]
  simp [slotsOf, List.getElem?_map, List.getElem?_range, h]

/-- Helper: storing a message in slot j is a delivery to stream j. -/
theorem slotsOf_set (n : Nat) (ds : List (Nat × Message)) (j : Nat)
    (m : Message) (hj : j < n) :
    (slotsOf n ds).set j (some m) = slotsOf n (ds ++ [(j, m)]) := by
  apply List.ext_getElem?
  intro i
  rw [List.getElem?_set]
  by_cases hi : i < n
  · have hr : (slotsOf n (ds ++ [(j, m)]))[i]? = some (lastMsg (ds ++ [(j, m)]) i) := by
      rw [← List.get?_eq_getElem?]; exact slotsOf_get n (ds ++ [(j, m)]) i hi
    have hl : (slotsOf n ds)[i]? = some (lastMsg ds i) := by
      rw [← List.get?_eq_getElem?]; exact slotsOf_get n ds i hi
    by_cases hij : j = i
    · subst hij
      rw [if_pos rfl, hr, lastMsg_snoc, if_pos rfl, if_pos (by rw [slotsOf_length]; omega)]
    · rw [if_neg hij, hr, hl, lastMsg_snoc, if_neg hij]
  · have h₁ : (slotsOf n ds).length ≤ i := by rw [slotsOf_length]; omega
    have h₂ : (slotsOf n (ds ++ [(j, m)])).length ≤ i := by
      rw [slotsOf_length]; omega
    rw [List.getElem?_eq_none h₂]
    by_cases hij : j = i
    · subst hij; rw [if_pos rfl, if_neg (by rw [slotsOf_length]; omega)]
    · rw [if_neg hij, List.getElem?_eq_none h₁]

/-- Helper: filling slot j increments the filled count exactly when the
slot was empty. -/
theorem countSome_set (l : List (Option Message)) :
    ∀ (j : Nat) (h : j < l.length) (m : Message),
      countSome (l.set j (some m)) =
        countSome l + (if (l.get ⟨j, h⟩).isNone then 1 else 0) := by
  induction l with
  | nil => intro j h m; exact absurd h (Nat.not_lt_zero j)
  | cons a rest ih =>
      intro j h m
      cases j with
      | zero =>
          cases a <;> simp [countSome, List.countP_cons]
      | succ k =>
          have hk : k < rest.length := by simpa using h
          simp only [List.set, countSome, List.countP_cons]
          rw [show (rest.set k (some m)).countP (fun o => o.isSome) =
                countSome (rest.set k (some m)) from rfl,
              ih k hk m]
          simp [countSome]
          omega

/-- Helper: the filled count reaches the stream count exactly when every
stream has delivered. -/
theorem countSome_slotsOf_eq_iff (n : Nat) (ds : List (Nat × Message)) :
    countSome (slotsOf n ds) = n ↔ (∀ i, i < n → covered ds i = true) := by
  unfold countSome
  have hlen : (slotsOf n ds).length = n := slotsOf_length n ds
  constructor
  · intro hc i hi
    have hall := List.countP_eq_length.mp (by rw [hc, hlen])
    have hmem : lastMsg ds i ∈ slotsOf n ds := by
      simp [slotsOf]
      exact ⟨i, hi, rfl⟩
    have := hall _ hmem
    rw [← lastMsg_isSome ds i]
    exact this
  · intro hall
    conv_rhs => rw [← hlen]
    apply List.countP_eq_length.mpr
    intro o ho
    simp only [slotsOf, List.mem_map, List.mem_range] at ho
    obtain ⟨i, hi, rfl⟩ := ho
    rw [lastMsg_isSome]
    exact hall i hi

/-- Helper: a delivery sequence splits across syncRun. -/
theorem syncRun_append (cfg : SyncConfig) (l₁ l₂ : List (Nat × Message)) :
    ∀ st, syncRun cfg st (l₁ ++ l₂) =
      (syncRun cfg st l₁) >>= fun st₂ => syncRun cfg st₂ l₂ := by
  induction l₁ with
  | nil => intro st; simp [syncRun, Bind.bind, Except.bind]
  | cons d rest ih =>
      intro st
      obtain ⟨i, m⟩ := d
      simp only [List.cons_append, syncRun]
      cases hstep : syncStep cfg st i m with
      | error e => simp [Bind.bind, Except.bind, hstep]
      | ok st₁ => simp [Bind.bind, Except.bind, hstep, ih st₁]

/-- Helper: the filled slot read by syncStep. -/
theorem slotsOf_getFin (n : Nat) (ds : List (Nat × Message)) (j : Nat)
    (hjl : j < (slotsOf n ds).length) :
    (slotsOf n ds).get ⟨j, hjl⟩ = lastMsg ds j := by
  have hj : j < n := by rw [slotsOf_length] at hjl; exact hjl
  have h₂ := List.get?_eq_get hjl
  rw [slotsOf_get n ds j hj] at h₂
  exact (Option.some.inj h₂).symm

/-- Helper: one delivery on an in-progress state that does not complete
the round: the slot is stored, the counter updated, nothing emitted. -/
theorem syncStep_incomplete (cfg : SyncConfig) (ds : List (Nat × Message))
    (j : Nat) (m : Message) (hj : j < cfg.n)
    (hne : countSome (slotsOf cfg.n (ds ++ [(j, m)])) ≠ cfg.n)
    (buf : Buffer (List (Option Message))) (em : List (List CbArg)) :
    syncStep cfg ⟨slotsOf cfg.n ds, countSome (slotsOf cfg.n ds), buf, em⟩ j m =
      .ok ⟨slotsOf cfg.n (ds ++ [(j, m)]),
           countSome (slotsOf cfg.n (ds ++ [(j, m)])), buf, em⟩ := by
  have hjl : j < (slotsOf cfg.n ds).length := by rw [slotsOf_length]; exact hj
  have hcnt : countSome (slotsOf cfg.n ds) +
      (if (lastMsg ds j).isNone = true then 1 else 0) =
      countSome (slotsOf cfg.n (ds ++ [(j, m)])) := by
    rw [← slotsOf_set cfg.n ds j m hj, countSome_set (slotsOf cfg.n ds) j hjl m,
        slotsOf_getFin cfg.n ds j hjl]
  unfold syncStep
  rw [slotsOf_get cfg.n ds j hj]
  simp only [hcnt, slotsOf_set cfg.n ds j m hj]
  rw [if_neg hne]

/-- Helper: invariant of a round in progress — as long as some stream has
not delivered, the synchronizer has emitted nothing, the pull buffer is
empty, the slot vector holds the latest message per stream, and the
counter equals the number of filled slots.  Holds for every mode. -/
theorem syncRun_incomplete (cfg : SyncConfig) (ds : List (Nat × Message))
    (hidx : ∀ d ∈ ds, d.1 < cfg.n)
    (hnc : ¬ ∀ i, i < cfg.n → covered ds i = true) :
    syncRun cfg (syncInit cfg) ds =
      .ok ⟨slotsOf cfg.n ds, countSome (slotsOf cfg.n ds), Buffer.init 1, []⟩ := by
  induction ds using List.reverseRecOn with
  | nil =>
      have hs : slotsOf cfg.n [] = List.replicate cfg.n none := by
        simp [slotsOf, lastMsg]
      have hc : countSome (slotsOf cfg.n []) = 0 := by
        rw [hs]; simp [countSome, List.countP_eq_zero]
      simp only [syncRun, syncInit]
      rw [hc, hs]
  | append_singleton pre d ih =>
      obtain ⟨j, m⟩ := d
      have hj : j < cfg.n := hidx (j, m) (by simp)
      have hidx₂ : ∀ d ∈ pre, d.1 < cfg.n := fun d hd => hidx d (by simp [hd])
      have hnc₂ : ¬ ∀ i, i < cfg.n → covered pre i = true := by
        intro hall
        exact hnc (fun i hi => by rw [covered_snoc]; simp [hall i hi])
      have hne : countSome (slotsOf cfg.n (pre ++ [(j, m)])) ≠ cfg.n := by
        intro he
        exact hnc ((countSome_slotsOf_eq_iff cfg.n (pre ++ [(j, m)])).mp he)
      rw [syncRun_append cfg pre [(j, m)] (syncInit cfg), ih hidx₂ hnc₂]
      simp only [Bind.bind, Except.bind, syncRun,
        syncStep_incomplete cfg pre j m hj hne (Buffer.init 1) []]

/-- Helper: in message-callback mode the per-slot emission transform never
raises, producing msgArg of each slot. -/
theorem mapM_slotArg_msg (n : Nat) (hc : Bool) (l : List (Option Message)) :
    exceptMapList (slotArg ⟨n, hc, true⟩) l =
      .ok (l.map (fun o => CbArg.msgArg o)) := by
  induction l with
  | nil => rfl
  | cons a rest ih =>
      cases a <;>
        simp [exceptMapList, slotArg, ih, Bind.bind, Except.bind, pure,
          Except.pure]

/-- Helper: the delivery that completes a round in message-callback mode
emits the slot tuple to the round callback and destroys the slot vector. -/
theorem syncStep_complete_msgcb (n : Nat) (ds : List (Nat × Message))
    (j : Nat) (m : Message) (hj : j < n)
    (heq : countSome (slotsOf n (ds ++ [(j, m)])) = n)
    (buf : Buffer (List (Option Message))) (em : List (List CbArg)) :
    syncStep ⟨n, true, true⟩
        ⟨slotsOf n ds, countSome (slotsOf n ds), buf, em⟩ j m =
      .ok ⟨[], 0, buf,
           em ++ [(slotsOf n (ds ++ [(j, m)])).map (fun o => CbArg.msgArg o)]⟩ := by
  have hjl : j < (slotsOf n ds).length := by rw [slotsOf_length]; exact hj
  have hcnt : countSome (slotsOf n ds) +
      (if (lastMsg ds j).isNone = true then 1 else 0) =
      countSome (slotsOf n (ds ++ [(j, m)])) := by
    rw [← slotsOf_set n ds j m hj, countSome_set (slotsOf n ds) j hjl m,
        slotsOf_getFin n ds j hjl]
  unfold syncStep
  rw [slotsOf_get n ds j hj]
  simp only [hcnt, slotsOf_set n ds j m hj]
  rw [if_pos heq]
  rw [mapM_slotArg_msg n true (slotsOf n (ds ++ [(j, m)]))]
  simp [Bind.bind, Except.bind]

/-- Helper: the delivery that completes a round in buffer mode pushes the
slot tuple into the empty single-slot buffer and destroys the slot
vector. -/
theorem syncStep_complete_buffer (n : Nat) (mc : Bool)
    (ds : List (Nat × Message)) (j : Nat) (m : Message) (hj : j < n)
    (heq : countSome (slotsOf n (ds ++ [(j, m)])) = n)
    (em : List (List CbArg)) :
    syncStep ⟨n, false, mc⟩
        ⟨slotsOf n ds, countSome (slotsOf n ds), Buffer.init 1, em⟩ j m =
      .ok ⟨[], 0, ⟨1, [slotsOf n (ds ++ [(j, m)])]⟩, em⟩ := by
  have hjl : j < (slotsOf n ds).length := by rw [slotsOf_length]; exact hj
  have hcnt : countSome (slotsOf n ds) +
      (if (lastMsg ds j).isNone = true then 1 else 0) =
      countSome (slotsOf n (ds ++ [(j, m)])) := by
    rw [← slotsOf_set n ds j m hj, countSome_set (slotsOf n ds) j hjl m,
        slotsOf_getFin n ds j hjl]
  unfold syncStep
  rw [slotsOf_get n ds j hj]
  simp only [hcnt, slotsOf_set n ds j m hj]
  rw [if_pos heq]
  simp [Buffer.push, Buffer.full, Buffer.init]

/-- Helper: a full first round in message-callback mode from construction:
one emission, ordered by stream index. -/
theorem syncRun_complete_msgcb (n : Nat) (pre : List (Nat × Message))
    (j : Nat) (m : Message)
    (hidx : ∀ d ∈ pre ++ [(j, m)], d.1 < n)
    (hnc : ¬ ∀ i, i < n → covered pre i = true)
    (hall : ∀ i, i < n → covered (pre ++ [(j, m)]) i = true) :
    syncRun ⟨n, true, true⟩ (syncInit ⟨n, true, true⟩) (pre ++ [(j, m)]) =
      .ok ⟨[], 0, Buffer.init 1,
           [(List.range n).map
             (fun i => CbArg.msgArg (lastMsg (pre ++ [(j, m)]) i))]⟩ := by
  have hj : j < n := hidx (j, m) (by simp)
  have hidx₂ : ∀ d ∈ pre, d.1 < n := fun d hd => hidx d (by simp [hd])
  have heq := (countSome_slotsOf_eq_iff n (pre ++ [(j, m)])).mpr hall
  rw [syncRun_append _ pre [(j, m)] _,
      syncRun_incomplete ⟨n, true, true⟩ pre hidx₂ hnc]
  simp only [Bind.bind, Except.bind, syncRun,
    syncStep_complete_msgcb n pre j m hj heq (Buffer.init 1) []]
  simp [slotsOf, List.map_map]

/-- Helper: a full first round in buffer mode from construction: the slot
tuple, ordered by stream index, lands in the single-slot buffer. -/
theorem syncRun_complete_buffer (n : Nat) (mc : Bool)
    (pre : List (Nat × Message)) (j : Nat) (m : Message)
    (hidx : ∀ d ∈ pre ++ [(j, m)], d.1 < n)
    (hnc : ¬ ∀ i, i < n → covered pre i = true)
    (hall : ∀ i, i < n → covered (pre ++ [(j, m)]) i = true) :
    syncRun ⟨n, false, mc⟩ (syncInit ⟨n, false, mc⟩) (pre ++ [(j, m)]) =
      .ok ⟨[], 0, ⟨1, [slotsOf n (pre ++ [(j, m)])]⟩, []⟩ := by
  have hj : j < n := hidx (j, m) (by simp)
  have hidx₂ : ∀ d ∈ pre, d.1 < n := fun d hd => hidx d (by simp [hd])
  have heq := (countSome_slotsOf_eq_iff n (pre ++ [(j, m)])).mpr hall
  rw [syncRun_append _ pre [(j, m)] _,
      syncRun_incomplete ⟨n, false, mc⟩ pre hidx₂ hnc]
  simp only [Bind.bind, Except.bind, syncRun,
    syncStep_complete_buffer n mc pre j m hj heq []]

/-- C4: during the first round (the only one the code can run, see C2),
while some stream has not yet delivered, no tuple is emitted and the pull
buffer stays empty, in every mode; and the delivery that makes the filled
count reach N (each stream counted at most once) emits exactly one tuple
of the N slot values ordered by stream index 0..N-1 regardless of arrival
order — the latest message of stream i in position i — to the round
callback in callback mode, or into the single-slot buffer in pull mode. -/
theorem C4_round_emission_ordered_by_index (n : Nat) :
    (∀ ds (hc mc : Bool), (∀ d ∈ ds, d.1 < n) →
      (¬ ∀ i, i < n → covered ds i = true) →
      syncRun ⟨n, hc, mc⟩ (syncInit ⟨n, hc, mc⟩) ds =
        .ok ⟨slotsOf n ds, countSome (slotsOf n ds), Buffer.init 1, []⟩) ∧
    (∀ pre j m, (∀ d ∈ pre ++ [(j, m)], d.1 < n) →
      (¬ ∀ i, i < n → covered pre i = true) →
      (∀ i, i < n → covered (pre ++ [(j, m)]) i = true) →
      syncRun ⟨n, true, true⟩ (syncInit ⟨n, true, true⟩) (pre ++ [(j, m)]) =
        .ok ⟨[], 0, Buffer.init 1,
             [(List.range n).map
               (fun i => CbArg.msgArg (lastMsg (pre ++ [(j, m)]) i))]⟩ ∧
      ∀ mc, syncRun ⟨n, false, mc⟩ (syncInit ⟨n, false, mc⟩) (pre ++ [(j, m)]) =
        .ok ⟨[], 0, ⟨1, [slotsOf n (pre ++ [(j, m)])]⟩, []⟩) :=
  ⟨fun ds hc mc hidx hnc => syncRun_incomplete ⟨n, hc, mc⟩ ds hidx hnc,
   fun pre j m hidx hnc hall =>
     ⟨syncRun_complete_msgcb n pre j m hidx hnc hall,
      fun mc => syncRun_complete_buffer n mc pre j m hidx hnc hall⟩⟩

/-- C4 witness: three streams fed out of order — stream 1, then stream 0,
then stream 2 — produce exactly one emission, ordered (stream0, stream1,
stream2). -/
theorem C4_witness :
    syncRun ⟨3, true, true⟩ (syncInit ⟨3, true, true⟩)
      [(1, Message.make (.num 11) (.str "s1")),
       (0, Message.make (.num 10) (.str "s0")),
       (2, Message.make (.num 12) (.str "s2"))] =
      .ok ⟨[], 0, Buffer.init 1,
           [[CbArg.msgArg (some (Message.make (.num 10) (.str "s0"))),
             CbArg.msgArg (some (Message.make (.num 11) (.str "s1"))),
             CbArg.msgArg (some (Message.make (.num 12) (.str "s2")))]]⟩ := by
  have h := (C4_round_emission_ordered_by_index 3).2
    [(1, Message.make (.num 11) (.str "s1")),
     (0, Message.make (.num 10) (.str "s0"))]
    2 (Message.make (.num 12) (.str "s2"))
    (by decide) (by decide) (by decide)
  exact h.1
